import Mathlib

/-!
Chat client (`src/App.js`): presence classification, roster ordering,
message feed pagination, sending and cleanup.

A shallow embedding of the `App` component.  React state (`useState`) is an
explicit record `AppState`; every handler is a function from the state (and the
outcome of the store call it awaits) to a `Result` holding the next state, the
store/console effects it issued, and the exception that reaches its caller.

Conventions of the embedding:

* a JavaScript `Date` is its number of milliseconds since the epoch (`Int`);
* a Firestore `Timestamp` is the record `seconds`/`nanoseconds`;
* `null` and `undefined` are both `none`: the program only ever tests such
  values for truthiness;
* `Array.prototype.sort(cmp)` is the stable sort by `cmp`, here an insertion
  sort (`jsSort`).
-/

namespace ChatApp

/-! ## Data model -/

/-- Firestore `Timestamp`: whole seconds since the epoch and the nanoseconds within
the second.  `createdAt.seconds` in the render code reads the first field. -/
structure Timestamp where
  seconds : Int
  nanoseconds : Nat
  deriving DecidableEq, Repr

/-- Chronological order of timestamps: `a` is strictly earlier than `b`. -/
def Timestamp.before (a b : Timestamp) : Prop :=
  a.seconds < b.seconds ∨ (a.seconds = b.seconds ∧ a.nanoseconds < b.nanoseconds)

instance (a b : Timestamp) : Decidable (Timestamp.before a b) := by
  unfold Timestamp.before; exact inferInstance

/-- The fields `sendMessage` writes into a document of the `messages` collection. -/
structure MessageData where
  text : String
  createdAt : Timestamp
  email : String
  avatar : Option String
  deriving DecidableEq, Repr

/-- A document snapshot of the `messages` collection: `doc.id` and `doc.data()`. -/
structure DocSnapshot where
  id : String
  data : MessageData
  deriving DecidableEq, Repr

/-- An element of the `messages` state: `{ id: doc.id, ...doc.data() }`. -/
structure Message where
  id : String
  text : String
  createdAt : Timestamp
  email : String
  avatar : Option String
  deriving DecidableEq, Repr

/-- The mapping `doc => ({ id: doc.id, ...doc.data() })` used by both message readers. -/
def toMessage (doc : DocSnapshot) : Message :=
  { id := doc.id, text := doc.data.text, createdAt := doc.data.createdAt,
    email := doc.data.email, avatar := doc.data.avatar }

/-- The signed-in Firebase user, as far as the component reads it. -/
structure User where
  uid : String
  email : String
  photoURL : Option String
  deriving DecidableEq, Repr

/-- The status a presence listener computes: the strings `'active'` and `'inactive'`. -/
inductive Status where
  | active
  | inactive
  deriving DecidableEq, Repr

/-- Data of a document of the `onlineUsers` collection.  `lastActive` is
`userData.lastActive?.toDate()` in milliseconds, `none` when the field is missing;
`status` is the stored string, which the listeners overwrite. -/
structure PresenceData where
  uid : String
  email : String
  avatar : Option String
  lastActive : Option Int
  status : String
  deriving DecidableEq, Repr

/-- A document snapshot of the `onlineUsers` collection. -/
structure PresenceDoc where
  id : String
  data : PresenceData
  deriving DecidableEq, Repr

/-- An element of the `onlineUsers` state: `{ id: doc.id, ...userData, status: ... }`,
the computed status replacing the stored one. -/
structure OnlineUser where
  id : String
  uid : String
  email : String
  avatar : Option String
  lastActive : Option Int
  status : Status
  deriving DecidableEq, Repr

/-! ## `Array.prototype.sort` -/

/-- JavaScript `arr.sort(cmp)`: a stable sort that places `a` no later than `b` when
`cmp a b ≤ 0`. -/
def jsSort {α : Type} (cmp : α → α → Int) (arr : List α) : List α :=
  arr.insertionSort (fun a b => cmp a b ≤ 0)

/-! ## Presence listeners -/

/-- Source: `const timeDiff = lastActive ? (currentTime - lastActive) / 1000 : 9999;`
(both listeners compute it the same way). -/
def timeDiff (lastActive : Option Int) (currentTime : Int) : ℚ :=
  match lastActive with
  | some t => ((currentTime - t : Int) : ℚ) / 1000
  | none => 9999

/-- Status computed by the listener registered in the `onAuthStateChanged` callback
(`App.js` line 138): `timeDiff < 10 ? 'active' : 'inactive'`. -/
def authListenerStatus (lastActive : Option Int) (currentTime : Int) : Status :=
  if timeDiff lastActive currentTime < 10 then Status.active else Status.inactive

/-- Status computed by the listener registered in the `[user]` effect
(`App.js` line 266): `timeDiff < 30 ? 'active' : 'inactive'`. -/
def userEffectListenerStatus (lastActive : Option Int) (currentTime : Int) : Status :=
  if timeDiff lastActive currentTime < 30 then Status.active else Status.inactive

/-- The record built for one document by the `onAuthStateChanged` listener. -/
def authListenerUser (currentTime : Int) (doc : PresenceDoc) : OnlineUser :=
  { id := doc.id, uid := doc.data.uid, email := doc.data.email, avatar := doc.data.avatar,
    lastActive := doc.data.lastActive,
    status := authListenerStatus doc.data.lastActive currentTime }

/-- The record built for one document by the `[user]`-effect listener. -/
def userEffectListenerUser (currentTime : Int) (doc : PresenceDoc) : OnlineUser :=
  { id := doc.id, uid := doc.data.uid, email := doc.data.email, avatar := doc.data.avatar,
    lastActive := doc.data.lastActive,
    status := userEffectListenerStatus doc.data.lastActive currentTime }

/-- The comparator of `onlineUsersData.sort(...)` (`App.js` lines 271-276).
`localeCompare` is the host's `String.prototype.localeCompare`, a parameter of the
model. -/
def compareUsers (localeCompare : String → String → Int) (a b : OnlineUser) : Int :=
  if a.status = b.status then localeCompare a.email b.email
  else if a.status = Status.active then -1 else 1

/-- The array `sortedUsers`: the classified records sorted by `compareUsers`; this is the
value the `[user]`-effect listener passes to `setOnlineUsers`. -/
def sortedUsers (localeCompare : String → String → Int) (onlineUsersData : List OnlineUser) :
    List OnlineUser :=
  jsSort (compareUsers localeCompare) onlineUsersData

/-- Case-folded code points of a string: ASCII letters are folded to lower case,
character by character. -/
def caseFold (s : String) : List Nat :=
  s.data.map (fun c => c.toLower.toNat)

/-- A comparison function realising the case-insensitive lexicographic order, used
as a sample value of the `localeCompare` parameter. -/
def caseInsensitiveCompare (a b : String) : Int :=
  if caseFold a < caseFold b then -1 else if caseFold b < caseFold a then 1 else 0

/-! ## Component state and effects -/

/-- The query `query(collection(db, "messages"), orderBy("createdAt", "desc"), ...)`:
both message queries of the component have this shape and differ only in the
`startAfter` cursor and share `limit(30)`. -/
structure MessagesQuery where
  startAfter : Option DocSnapshot
  limit : Nat
  deriving DecidableEq, Repr

/-- Calls the component makes on the document store, timers and console. -/
inductive Effect where
  | unsubscribe (handle : Nat)
  | clearInterval (id : Nat)
  | deleteDoc (collection : String) (id : String)
  | addDoc (collection : String) (data : MessageData)
  | getDocs (q : MessagesQuery)
  | consoleError (msg : String)
  deriving DecidableEq, Repr

/-- The `useState` cells of `App`.  The two unsubscribe functions are identified by a
handle; `heartbeatInterval` is the id returned by `setInterval`. -/
structure AppState where
  user : Option User
  message : String
  messages : List Message
  onlineUsers : List OnlineUser
  heartbeatInterval : Option Nat
  unsubscribeMessages : Option Nat
  unsubscribeOnlineUsers : Option Nat
  lastVisible : Option DocSnapshot
  isLoadingMore : Bool
  shouldAutoScroll : Bool
  deriving DecidableEq, Repr

/-- The initial values given to `useState`. -/
def initialState : AppState :=
  { user := none, message := "", messages := [], onlineUsers := [],
    heartbeatInterval := none, unsubscribeMessages := none, unsubscribeOnlineUsers := none,
    lastVisible := none, isLoadingMore := false, shouldAutoScroll := true }

/-- What a handler leaves behind: the next state, the effects it issued in order, and
the exception that propagates to its caller (`none` when it returns normally). -/
structure Result where
  state : AppState
  effects : List Effect
  error : Option String
  deriving DecidableEq, Repr

/-- Truthiness of a timer id (`if (heartbeatInterval)`): a number is falsy when `0`. -/
def truthyId : Option Nat → Bool
  | some n => n != 0
  | none => false

/-- Truthiness of `userId` (`if (userId)`): a string is falsy when empty. -/
def truthyString : Option String → Bool
  | some u => u != ""
  | none => false

/-- The presence listener registered in the `onAuthStateChanged` callback
(`App.js` lines 127-143): every document is classified and the list stored unsorted.
`currentTime` stands for the `new Date()` read while mapping. -/
def onlineUsersAuthListener (s : AppState) (currentTime : Int) (docs : List PresenceDoc) :
    AppState :=
  { s with onlineUsers := docs.map (authListenerUser currentTime) }

/-- The presence listener registered in the `[user]` effect (`App.js` lines 254-279):
every document is classified, the list sorted and stored. -/
def onlineUsersUserEffectListener (localeCompare : String → String → Int) (s : AppState)
    (currentTime : Int) (docs : List PresenceDoc) : AppState :=
  { s with
    onlineUsers := sortedUsers localeCompare (docs.map (userEffectListenerUser currentTime)) }

/-! ## `cleanup` -/

/-- Handler `cleanup(userId)` (`App.js` lines 37-64), run on the state `s` it reads:
each registered listener is unsubscribed and its cell nulled, a truthy timer id is
cleared and nulled, both lists are emptied, and a truthy `userId` has its presence
document deleted.  `deleteDocFails` is the outcome of the awaited `deleteDoc`; its
rejection is caught and logged. -/
def cleanup (s : AppState) (userId : Option String) (deleteDocFails : Bool) : Result :=
  let e1 := match s.unsubscribeMessages with
    | some h => [Effect.unsubscribe h]
    | none => []
  let e2 := match s.unsubscribeOnlineUsers with
    | some h => [Effect.unsubscribe h]
    | none => []
  let e3 := match s.heartbeatInterval with
    | some i => if truthyId (some i) then [Effect.clearInterval i] else []
    | none => []
  let s1 : AppState :=
    { s with
      unsubscribeMessages := none
      unsubscribeOnlineUsers := none
      heartbeatInterval := if truthyId s.heartbeatInterval then none else s.heartbeatInterval
      messages := []
      onlineUsers := [] }
  let e4 := match userId with
    | some u =>
      if truthyString (some u) then
        Effect.deleteDoc "onlineUsers" u ::
          (if deleteDocFails then
            [Effect.consoleError "Error removing user from online users:"] else [])
      else []
    | none => []
  { state := s1, effects := e1 ++ e2 ++ e3 ++ e4, error := none }

/-- The `deleteDoc` calls among a list of effects. -/
def deletes (es : List Effect) : List Effect :=
  es.filter (fun e => match e with
    | Effect.deleteDoc _ _ => true
    | _ => false)

/-! ## `sendMessage` -/

/-- ECMAScript `WhiteSpace` and `LineTerminator` code points, the characters
`String.prototype.trim` strips. -/
def isWhiteSpace (c : Char) : Bool :=
  let n := c.toNat
  n == 0x09 || n == 0x0A || n == 0x0B || n == 0x0C || n == 0x0D || n == 0x20 ||
  n == 0xA0 || n == 0x1680 || (0x2000 ≤ n && n ≤ 0x200A) || n == 0x2028 ||
  n == 0x2029 || n == 0x202F || n == 0x205F || n == 0x3000 || n == 0xFEFF

/-- JavaScript `String.prototype.trim`: white space removed from both ends. -/
def trim (s : String) : String :=
  ⟨((s.data.dropWhile isWhiteSpace).reverse.dropWhile isWhiteSpace).reverse⟩

/-- Handler `sendMessage()` (`App.js` lines 175-184).  `now` is the value of `new Date()` as
the store records it; `addDocFails` is the outcome of the awaited `addDoc`, whose
rejection is not caught.  Reading `user.email` of a null user throws before any
write. -/
def sendMessage (s : AppState) (now : Timestamp) (addDocFails : Bool) : Result :=
  if trim s.message = "" then { state := s, effects := [], error := none }
  else
    match s.user with
    | none => { state := s, effects := [], error := some "TypeError" }
    | some user =>
      let write := Effect.addDoc "messages"
        { text := s.message, createdAt := now, email := user.email, avatar := user.photoURL }
      if addDocFails then { state := s, effects := [write], error := some "addDoc rejected" }
      else { state := { s with message := "" }, effects := [write], error := none }

/-! ## The message feed -/

/-- Listener `onSnapshot(messagesQuery, snapshot => ...)` (`App.js` lines 118-125): the held
list becomes the notification's documents and the cursor its last document
(`snapshot.docs[snapshot.docs.length - 1]`, undefined for an empty notification). -/
def onMessagesSnapshot (s : AppState) (docs : List DocSnapshot) : AppState :=
  { s with messages := docs.map toMessage, lastVisible := docs.getLast? }

/-- Handler `loadMoreMessages` up to its `await` (`App.js` lines 219-230): returns at once
without a cursor, otherwise raises `isLoadingMore` and issues the query that starts
after the cursor. -/
def loadMoreMessagesStart (s : AppState) : AppState × Option MessagesQuery :=
  match s.lastVisible with
  | none => (s, none)
  | some cursor =>
    ({ s with isLoadingMore := true }, some { startAfter := some cursor, limit := 30 })

/-- Handler `loadMoreMessages` from the resolution of `getDocs` on (`App.js` lines 231-247):
on success the batch is appended and the cursor moved, on failure the error is
logged; `finally` lowers `isLoadingMore`. -/
def loadMoreMessagesResume (s : AppState) (snapshot : Except String (List DocSnapshot)) :
    AppState × List Effect :=
  match snapshot with
  | Except.ok docs =>
    ({ s with
        messages := s.messages ++ docs.map toMessage
        lastVisible := if docs.length > 0 then docs.getLast? else none
        isLoadingMore := false }, [])
  | Except.error _ =>
    ({ s with isLoadingMore := false }, [Effect.consoleError "Error loading more messages:"])

/-- A whole call of `loadMoreMessages()` with nothing interleaved; `getDocs` answers
the query. -/
def loadMoreMessages (s : AppState)
    (getDocs : MessagesQuery → Except String (List DocSnapshot)) : Result :=
  match loadMoreMessagesStart s with
  | (s1, none) => { state := s1, effects := [], error := none }
  | (s1, some q) =>
    let r := loadMoreMessagesResume s1 (getDocs q)
    { state := r.1, effects := Effect.getDocs q :: r.2, error := none }

/-- The "Load Older Messages" button (`App.js` lines 304-309): rendered only when
`lastVisible` is set; the value is its `disabled` attribute. -/
def loadOlderButton (s : AppState) : Option Bool :=
  match s.lastVisible with
  | some _ => some s.isLoadingMore
  | none => none

/-- A click on the "Load Older Messages" button: `onClick={loadMoreMessages}` runs
only if the button is rendered and not disabled. -/
def clickLoadOlder (s : AppState) : AppState × Option MessagesQuery :=
  match loadOlderButton s with
  | some false => loadMoreMessagesStart s
  | _ => (s, none)

/-- The comparator of the render-time sort (`App.js` line 328):
`a.createdAt.seconds - b.createdAt.seconds`. -/
def compareMessages (a b : Message) : Int :=
  a.createdAt.seconds - b.createdAt.seconds

/-- The order in which the held messages are rendered: `messages.sort(...)`. -/
def renderedMessages (messages : List Message) : List Message :=
  jsSort compareMessages messages

/-- Effect of a render on the state: `sort` works in place, so the held array itself
is left in rendered order. -/
def render (s : AppState) : AppState :=
  { s with messages := renderedMessages s.messages }

/-! ## The document store's query evaluation -/

/-- Sort key of a document id: its code points, compared lexicographically. -/
def idKey (id : String) : List Nat :=
  id.data.map Char.toNat

/-- Position order of `orderBy("createdAt", "desc")`: `a` comes no later than `b`.
Documents with equal `createdAt` are ordered by document id in the same direction. -/
def docOrder (a b : DocSnapshot) : Prop :=
  b.data.createdAt.before a.data.createdAt ∨
    (a.data.createdAt = b.data.createdAt ∧ idKey b.id ≤ idKey a.id)

instance (a b : DocSnapshot) : Decidable (docOrder a b) := by
  unfold docOrder; exact inferInstance

/-- Document `d` lies strictly after the cursor document in that order. -/
def strictlyAfter (cursor d : DocSnapshot) : Prop :=
  d.data.createdAt.before cursor.data.createdAt ∨
    (d.data.createdAt = cursor.data.createdAt ∧ idKey d.id < idKey cursor.id)

instance (c d : DocSnapshot) : Decidable (strictlyAfter c d) := by
  unfold strictlyAfter; exact inferInstance

/-- Result of a `MessagesQuery` on a collection holding `store`: order by `createdAt`
descending, keep what lies strictly after the cursor, cut at the limit. -/
def runQuery (store : List DocSnapshot) (q : MessagesQuery) : List DocSnapshot :=
  let ordered := store.insertionSort docOrder
  let fromCursor := match q.startAfter with
    | some cursor => ordered.filter (fun d => decide (strictlyAfter cursor d))
    | none => ordered
  fromCursor.take q.limit

/-- The live query of the messages listener: newest first, `limit(30)`, no cursor. -/
def liveQuery : MessagesQuery :=
  { startAfter := none, limit := 30 }

/-- Answer `getDocs` from a fixed collection content; the fetch succeeds. -/
def storeGetDocs (store : List DocSnapshot) (q : MessagesQuery) :
    Except String (List DocSnapshot) :=
  Except.ok (runQuery store q)

/-- The fetches among a list of effects, each with the batch the store returns. -/
def fetchesOf (store : List DocSnapshot) (es : List Effect) :
    List (MessagesQuery × List DocSnapshot) :=
  es.filterMap (fun e => match e with
    | Effect.getDocs q => some (q, runQuery store q)
    | _ => none)

/-- The feed over a fixed collection: the first live notification, then `n` completed
calls of `loadMoreMessages`, each state change followed by a render.  Returns the
state reached and the log of one-shot fetches (query and returned batch). -/
def feedAfter (store : List DocSnapshot) : Nat → AppState × List (MessagesQuery × List DocSnapshot)
  | 0 => (render (onMessagesSnapshot initialState (runQuery store liveQuery)), [])
  | n + 1 =>
    let prev := feedAfter store n
    let r := loadMoreMessages prev.1 (storeGetDocs store)
    (render r.state, prev.2 ++ fetchesOf store r.effects)

/-- The `k`-th page of the collection content: 30 documents from position `30 * k`. -/
def page (store : List DocSnapshot) (k : Nat) : List DocSnapshot :=
  (store.drop (30 * k)).take 30

/-- The fetch log after `n` calls: call `k + 1` issues a fetch exactly when page `k`
is not empty, from the last document of page `k`, and receives page `k + 1`. -/
def expectedLog (store : List DocSnapshot) (n : Nat) :
    List (MessagesQuery × List DocSnapshot) :=
  (List.range n).filterMap (fun k =>
    (page store k).getLast?.map (fun c =>
      (({ startAfter := some c, limit := 30 } : MessagesQuery), page store (k + 1))))

/-- The collection content is listed newest first with strictly decreasing
`createdAt`. -/
def StrictlyDecreasing (store : List DocSnapshot) : Prop :=
  store.Pairwise (fun a b => b.data.createdAt.before a.data.createdAt)

instance (store : List DocSnapshot) : Decidable (StrictlyDecreasing store) := by
  unfold StrictlyDecreasing; exact inferInstance

/-- A sample collection of `n` documents with `createdAt` seconds `n, n-1, ..., 1`. -/
def sampleStore (n : Nat) : List DocSnapshot :=
  (List.range n).map (fun i =>
    { id := String.mk (List.replicate (i + 1) 'm'),
      data := { text := "hi", createdAt := { seconds := (n - i : Nat), nanoseconds := 0 },
                email := "a@x", avatar := none } })

/-! ## Sample values -/

/-- A sample message document. -/
def sampleDoc (id : String) (seconds : Int) (nanoseconds : Nat) : DocSnapshot :=
  { id := id,
    data := { text := "hi", createdAt := { seconds := seconds, nanoseconds := nanoseconds },
              email := "a@x", avatar := none } }

/-- A sample presence document, last active at time 0. -/
def samplePresence : PresenceDoc :=
  { id := "u1",
    data := { uid := "u1", email := "a@x", avatar := none, lastActive := some 0,
              status := "active" } }

/-- A sample signed-in state with a draft. -/
def sampleState (draft : String) : AppState :=
  { initialState with
    user := some { uid := "u1", email := "a@x", photoURL := none }
    message := draft }

/-- A sample state of a running session: both listeners registered, the heartbeat timer
running, one message held, a pagination fetch in flight. -/
def loadingState : AppState :=
  { sampleState "" with
    messages := [toMessage (sampleDoc "m2" 2 0)]
    heartbeatInterval := some 7
    unsubscribeMessages := some 1
    unsubscribeOnlineUsers := some 2
    lastVisible := some (sampleDoc "m2" 2 0)
    isLoadingMore := true }

end ChatApp

namespace ChatApp

/-! ## Presence classification -/

theorem authListenerStatus_active_iff (lastActive : Option Int) (now : Int) :
    authListenerStatus lastActive now = Status.active ↔ timeDiff lastActive now < 10 := by
  unfold authListenerStatus
  split <;> simp_all

theorem userEffectListenerStatus_active_iff (lastActive : Option Int) (now : Int) :
    userEffectListenerStatus lastActive now = Status.active ↔ timeDiff lastActive now < 30 := by
  unfold userEffectListenerStatus
  split <;> simp_all

theorem timeDiff_sample : timeDiff (some 0) 15000 = 15 := by
  simp only [timeDiff]
  norm_num

/-- C1: the two presence listeners do not share a threshold.  Each classifies by a
strict bound of its own, 10 seconds for the `onAuthStateChanged` listener and 30
seconds for the `[user]`-effect listener; a record last active 15 seconds ago is
stored as `inactive` by the first and `active` by the second, so no single
`THRESHOLD` makes both listeners classify by `age < THRESHOLD`. -/
theorem presence_thresholds_disagree :
    (onlineUsersAuthListener initialState 15000 [samplePresence]).onlineUsers.map
      OnlineUser.status = [Status.inactive] ∧
    (onlineUsersUserEffectListener caseInsensitiveCompare initialState 15000
      [samplePresence]).onlineUsers.map OnlineUser.status = [Status.active] ∧
    (∀ (lastActive now : Int), authListenerStatus (some lastActive) now = Status.active ↔
      timeDiff (some lastActive) now < 10) ∧
    (∀ (lastActive now : Int),
      userEffectListenerStatus (some lastActive) now = Status.active ↔
        timeDiff (some lastActive) now < 30) ∧
    ¬ ∃ T : ℚ, ∀ (lastActive now : Int),
        (authListenerStatus (some lastActive) now = Status.active ↔
          timeDiff (some lastActive) now < T) ∧
        (userEffectListenerStatus (some lastActive) now = Status.active ↔
          timeDiff (some lastActive) now < T) := by
  have ha : authListenerStatus (some 0) 15000 = Status.inactive := by
    have h : ¬ (authListenerStatus (some 0) 15000 = Status.active) := by
      rw [authListenerStatus_active_iff, timeDiff_sample]; norm_num
    cases hs : authListenerStatus (some 0) 15000
    · exact absurd hs h
    · rfl
  have hu : userEffectListenerStatus (some 0) 15000 = Status.active := by
    rw [userEffectListenerStatus_active_iff, timeDiff_sample]; norm_num
  refine ⟨?_, ?_, fun la now => authListenerStatus_active_iff _ _,
    fun la now => userEffectListenerStatus_active_iff _ _, ?_⟩
  · simp [onlineUsersAuthListener, authListenerUser, samplePresence, ha]
  · simp [onlineUsersUserEffectListener, userEffectListenerUser, samplePresence, hu,
      sortedUsers, jsSort]
  · rintro ⟨T, hT⟩
    obtain ⟨h1, h2⟩ := hT 0 15000
    have h3 : timeDiff (some 0) 15000 < T := h2.mp hu
    have h4 : authListenerStatus (some 0) 15000 = Status.active := h1.mpr h3
    rw [ha] at h4
    exact Status.noConfusion h4

/-! ## Sending -/

/-- C7: with a signed-in user, `sendMessage` writes nothing and leaves the whole state
(the draft included) unchanged when the trimmed draft is empty; otherwise it issues
exactly one write, an `addDoc` to `messages` carrying the entered text,
`createdAt = now` and the user's email and avatar, and, the write having succeeded,
clears the draft and changes nothing else. -/
theorem sendMessage_spec (s : AppState) (user : User) (hu : s.user = some user)
    (now : Timestamp) (addDocFails : Bool) :
    (trim s.message = "" →
      sendMessage s now addDocFails = { state := s, effects := [], error := none }) ∧
    (trim s.message ≠ "" →
      (sendMessage s now addDocFails).effects =
        [Effect.addDoc "messages"
          { text := s.message, createdAt := now, email := user.email,
            avatar := user.photoURL }] ∧
      (addDocFails = false →
        (sendMessage s now addDocFails).state = { s with message := "" } ∧
        (sendMessage s now addDocFails).error = none)) := by
  constructor
  · intro h
    simp [sendMessage, h]
  · intro h
    cases addDocFails <;> simp [sendMessage, h, hu]

/-- C7, witness: the draft `"   "` writes nothing; the draft `"hello"` is written
once and cleared. -/
theorem sendMessage_spec_witness :
    sendMessage (sampleState "   ") ⟨100, 0⟩ false =
      { state := sampleState "   ", effects := [], error := none } ∧
    (sendMessage (sampleState "hello") ⟨100, 0⟩ false).effects =
      [Effect.addDoc "messages"
        { text := "hello", createdAt := ⟨100, 0⟩, email := "a@x", avatar := none }] ∧
    (sendMessage (sampleState "hello") ⟨100, 0⟩ false).state = sampleState "" :=
  ⟨(sendMessage_spec (sampleState "   ") ⟨"u1", "a@x", none⟩ rfl ⟨100, 0⟩ false).1 (by decide),
   ((sendMessage_spec (sampleState "hello") ⟨"u1", "a@x", none⟩ rfl ⟨100, 0⟩ false).2
      (by decide)).1,
   (((sendMessage_spec (sampleState "hello") ⟨"u1", "a@x", none⟩ rfl ⟨100, 0⟩ false).2
      (by decide)).2 rfl).1⟩

/-! ## Cleanup -/

/-- C8, as stated, fails: called twice with the user id `"u1"`, the second `cleanup`
call issues a `deleteDoc` of the presence record again. -/
theorem cleanup_twice_deletes_again :
    deletes (cleanup (cleanup loadingState (some "u1") false).state (some "u1") false).effects
      = [Effect.deleteDoc "onlineUsers" "u1"] := by
  decide

/-- C8, amended: a second `cleanup` right after a first one does not throw, leaves the
state as the first call left it, unsubscribes nothing and clears no timer; it issues a
`deleteDoc` of the presence record exactly when a non-empty user id is passed (logging
its failure), and none otherwise. -/
theorem cleanup_twice (s : AppState) (userId : Option String) (fails1 fails2 : Bool) :
    (cleanup (cleanup s userId fails1).state userId fails2).error = none ∧
    (cleanup (cleanup s userId fails1).state userId fails2).state
      = (cleanup s userId fails1).state ∧
    (cleanup (cleanup s userId fails1).state userId fails2).effects =
      (match userId with
        | some u =>
          if truthyString (some u) then
            Effect.deleteDoc "onlineUsers" u ::
              (if fails2 then
                [Effect.consoleError "Error removing user from online users:"] else [])
          else []
        | none => []) := by
  refine ⟨rfl, ?_, ?_⟩
  · rcases hh : s.heartbeatInterval with _ | i
    · simp [cleanup, truthyId, hh]
    · by_cases hi : i = 0 <;> simp [cleanup, truthyId, hh, hi]
  · rcases hh : s.heartbeatInterval with _ | i
    · simp [cleanup, truthyId, hh]
    · by_cases hi : i = 0 <;> simp [cleanup, truthyId, hh, hi]

/-! ## Live notifications -/

/-- C10: whatever list was held before (also one extended by earlier
`loadMoreMessages` calls), after a notification of the live messages subscription the
held list is exactly the notification's documents in delivered order, each as its id
plus its data, and the cursor is the last document of the notification (no cursor
for an empty notification); the other state cells are untouched. -/
theorem onMessagesSnapshot_replaces (s : AppState) (docs : List DocSnapshot) :
    (onMessagesSnapshot s docs).messages = docs.map toMessage ∧
    (onMessagesSnapshot s docs).messages.map Message.id = docs.map DocSnapshot.id ∧
    (∀ m ∈ (onMessagesSnapshot s docs).messages, ∃ d ∈ docs,
      m.id = d.id ∧ m.text = d.data.text ∧ m.createdAt = d.data.createdAt ∧
      m.email = d.data.email ∧ m.avatar = d.data.avatar) ∧
    (onMessagesSnapshot s docs).lastVisible = docs.getLast? ∧
    (∀ ds d, docs = ds ++ [d] → (onMessagesSnapshot s docs).lastVisible = some d) ∧
    onMessagesSnapshot s docs =
      { s with messages := docs.map toMessage, lastVisible := docs.getLast? } := by
  refine ⟨rfl, ?_, ?_, rfl, ?_, rfl⟩
  · simp [onMessagesSnapshot, toMessage, Function.comp_def]
  · intro m hm
    simp only [onMessagesSnapshot, List.mem_map] at hm
    obtain ⟨d, hd, rfl⟩ := hm
    exact ⟨d, hd, rfl, rfl, rfl, rfl, rfl⟩
  · rintro ds d rfl
    simp [onMessagesSnapshot]

/-! ## Loading older messages -/

/-- C9: with a cursor set, a call of `loadMoreMessages` always ends with
`isLoadingMore = false` and no exception reaching the caller, whether the fetch
succeeds or fails; when the fetch fails, the held list, the cursor and every other
state cell are as before the call, `isLoadingMore` being false. -/
theorem loadMoreMessages_failure (s : AppState) (cursor : DocSnapshot)
    (hc : s.lastVisible = some cursor)
    (getDocs : MessagesQuery → Except String (List DocSnapshot)) :
    (loadMoreMessages s getDocs).state.isLoadingMore = false ∧
    (loadMoreMessages s getDocs).error = none ∧
    (∀ e, getDocs { startAfter := some cursor, limit := 30 } = Except.error e →
      (loadMoreMessages s getDocs).state.messages = s.messages ∧
      (loadMoreMessages s getDocs).state.lastVisible = s.lastVisible ∧
      (loadMoreMessages s getDocs).state = { s with isLoadingMore := false }) := by
  refine ⟨?_, ?_, ?_⟩
  · simp only [loadMoreMessages, loadMoreMessagesStart, hc]
    cases getDocs { startAfter := some cursor, limit := 30 } <;> rfl
  · simp only [loadMoreMessages, loadMoreMessagesStart, hc]
  · intro e he
    simp [loadMoreMessages, loadMoreMessagesStart, hc, he, loadMoreMessagesResume]

/-- C9, witness: a failing fetch from a state holding one message. -/
theorem loadMoreMessages_failure_witness :
    (loadMoreMessages { loadingState with isLoadingMore := false }
      (fun _ => Except.error "unavailable")).state
      = { loadingState with isLoadingMore := false } ∧
    (loadMoreMessages { loadingState with isLoadingMore := false }
      (fun _ => Except.error "unavailable")).error = none :=
  ⟨((loadMoreMessages_failure { loadingState with isLoadingMore := false }
      (sampleDoc "m2" 2 0) rfl (fun _ => Except.error "unavailable")).2.2
      "unavailable" rfl).2.2,
   (loadMoreMessages_failure { loadingState with isLoadingMore := false }
      (sampleDoc "m2" 2 0) rfl (fun _ => Except.error "unavailable")).2.1⟩

/-- C4, as stated, fails: invoked while a pagination fetch is in flight
(`isLoadingMore = true`), `loadMoreMessages` issues a second fetch from the same
cursor, and when both fetches resolve their batches are both appended. -/
theorem loadMoreMessages_not_guarded :
    loadingState.isLoadingMore = true ∧
    (loadMoreMessagesStart loadingState).2
      = some { startAfter := some (sampleDoc "m2" 2 0), limit := 30 } ∧
    (loadMoreMessagesResume
      (loadMoreMessagesResume (loadMoreMessagesStart loadingState).1
        (Except.ok [sampleDoc "m1" 1 0])).1
      (Except.ok [sampleDoc "m1" 1 0])).1.messages
      = [toMessage (sampleDoc "m2" 2 0), toMessage (sampleDoc "m1" 1 0),
         toMessage (sampleDoc "m1" 1 0)] := by
  decide

/-- C4, amended: the guard is the button, not the function.  While `isLoadingMore` is
true a click on "Load Older Messages" invokes nothing: no fetch is issued and the
state is unchanged; a click that does issue a fetch raises `isLoadingMore`, so the
next click is ignored until that fetch has resolved.  `loadMoreMessages` itself does
not look at `isLoadingMore`: with a cursor it issues a fetch in any state. -/
theorem clickLoadOlder_ignored_while_loading (s : AppState) (h : s.isLoadingMore = true) :
    clickLoadOlder s = (s, none) ∧
    (∀ t q, (clickLoadOlder t).2 = some q →
      clickLoadOlder (clickLoadOlder t).1 = ((clickLoadOlder t).1, none)) ∧
    (∀ cursor, s.lastVisible = some cursor →
      (loadMoreMessagesStart s).2 = some { startAfter := some cursor, limit := 30 }) := by
  refine ⟨?_, ?_, ?_⟩
  · unfold clickLoadOlder loadOlderButton
    cases hl : s.lastVisible <;> simp [h]
  · intro t q ht
    have : (clickLoadOlder t).1.isLoadingMore = true := by
      revert ht
      unfold clickLoadOlder loadOlderButton loadMoreMessagesStart
      cases hl : t.lastVisible <;> cases hb : t.isLoadingMore <;> simp [hl, hb]
    revert this
    generalize (clickLoadOlder t).1 = u
    intro hu
    unfold clickLoadOlder loadOlderButton
    cases hl : u.lastVisible <;> simp [hu]
  · intro cursor hc
    simp [loadMoreMessagesStart, hc]

/-- C4, witness: a click in a state whose fetch is in flight. -/
theorem clickLoadOlder_ignored_while_loading_witness :
    clickLoadOlder loadingState = (loadingState, none) :=
  (clickLoadOlder_ignored_while_loading loadingState rfl).1

/-- C5, as stated, fails: a fetched document whose id is already held is appended all
the same; the held ids were distinct and the resulting ids are not. -/
theorem loadMoreMessages_keeps_duplicate :
    (loadMoreMessagesResume loadingState (Except.ok [sampleDoc "m2" 2 0])).1.messages
      = [toMessage (sampleDoc "m2" 2 0), toMessage (sampleDoc "m2" 2 0)] ∧
    (loadingState.messages.map Message.id).Nodup ∧
    ¬ ((loadMoreMessagesResume loadingState
        (Except.ok [sampleDoc "m2" 2 0])).1.messages.map Message.id).Nodup := by
  decide

/-- C5, amended: the list after `loadMoreMessages` appends a fetched batch is the held
list followed by all the batch's messages in fetch order, none dropped; the resulting
ids are pairwise distinct exactly when the held ids are, the batch's ids are, and no
batch id is already held. -/
theorem loadMoreMessages_appends (s : AppState) (docs : List DocSnapshot) :
    (loadMoreMessagesResume s (Except.ok docs)).1.messages
      = s.messages ++ docs.map toMessage ∧
    (((loadMoreMessagesResume s (Except.ok docs)).1.messages.map Message.id).Nodup ↔
      (s.messages.map Message.id).Nodup ∧ (docs.map DocSnapshot.id).Nodup ∧
      ∀ d ∈ docs, d.id ∉ s.messages.map Message.id) := by
  have hmap : (docs.map toMessage).map Message.id = docs.map DocSnapshot.id := by
    simp [toMessage, Function.comp_def]
  refine ⟨rfl, ?_⟩
  simp only [loadMoreMessagesResume, List.map_append, hmap, List.nodup_append,
    List.disjoint_left]
  constructor
  · rintro ⟨h1, h2, h3⟩
    refine ⟨h1, h2, ?_⟩
    intro d hd hmem
    exact h3 hmem (List.mem_map_of_mem _ hd)
  · rintro ⟨h1, h2, h3⟩
    refine ⟨h1, h2, ?_⟩
    intro a ha hb
    obtain ⟨d, hd, rfl⟩ := List.mem_map.mp hb
    exact h3 d hd ha

/-! ## Rendering -/

theorem renderedMessages_sorted_seconds (messages : List Message) :
    (renderedMessages messages).Pairwise
      (fun a b => a.createdAt.seconds ≤ b.createdAt.seconds) := by
  haveI : IsTotal Message (fun a b => compareMessages a b ≤ 0) :=
    ⟨fun a b => by unfold compareMessages; omega⟩
  haveI : IsTrans Message (fun a b => compareMessages a b ≤ 0) :=
    ⟨fun a b c hab hbc => by unfold compareMessages at *; omega⟩
  have hs := List.sorted_insertionSort (fun a b => compareMessages a b ≤ 0) messages
  refine List.Pairwise.imp ?_ hs
  intro a b hab
  unfold compareMessages at hab
  omega

/-- C6: the render-time sort compares whole seconds only.  Two held messages of the
same second, newest first as fetched, are rendered in that order: the later one
(1.5 s) before the earlier one (1.1 s).  What holds for every held list is that the
rendered list is a permutation of it in ascending order of `createdAt.seconds`;
messages with seconds 3, 1, 2 are rendered in the order 1, 2, 3. -/
theorem renderedMessages_same_second :
    renderedMessages [toMessage (sampleDoc "b" 1 500000000), toMessage (sampleDoc "a" 1 100000000)]
      = [toMessage (sampleDoc "b" 1 500000000), toMessage (sampleDoc "a" 1 100000000)] ∧
    (toMessage (sampleDoc "a" 1 100000000)).createdAt.before
      (toMessage (sampleDoc "b" 1 500000000)).createdAt ∧
    (renderedMessages [toMessage (sampleDoc "x" 3 0), toMessage (sampleDoc "y" 1 0),
        toMessage (sampleDoc "z" 2 0)]).map (fun m => m.createdAt.seconds) = [1, 2, 3] ∧
    (∀ messages : List Message, (renderedMessages messages).Perm messages ∧
      (renderedMessages messages).Pairwise
        (fun a b => a.createdAt.seconds ≤ b.createdAt.seconds)) := by
  refine ⟨by decide, by decide, by decide, fun messages => ?_⟩
  exact ⟨List.perm_insertionSort _ messages, renderedMessages_sorted_seconds messages⟩

/-! ## Roster ordering -/

theorem Timestamp.before_asymm {a b : Timestamp} (h : a.before b) : ¬ b.before a := by
  unfold Timestamp.before at *
  omega

theorem strictlyAfter_of_before {c d : DocSnapshot}
    (h : d.data.createdAt.before c.data.createdAt) : strictlyAfter c d :=
  Or.inl h

theorem not_strictlyAfter_of_before {c d : DocSnapshot}
    (h : c.data.createdAt.before d.data.createdAt) : ¬ strictlyAfter c d := by
  rintro (h1 | ⟨h1, _⟩)
  · exact Timestamp.before_asymm h h1
  · rw [h1] at h
    exact Timestamp.before_asymm h h

theorem not_strictlyAfter_self (c : DocSnapshot) : ¬ strictlyAfter c c := by
  rintro (h1 | ⟨_, h1⟩)
  · exact Timestamp.before_asymm h1 h1
  · exact lt_irrefl _ h1

theorem insertionSort_of_strictlyDecreasing {store : List DocSnapshot}
    (h : StrictlyDecreasing store) : store.insertionSort docOrder = store := by
  apply List.Sorted.insertionSort_eq
  exact List.Pairwise.imp (fun hab => Or.inl hab) h

theorem filter_strictlyAfter {l1 l2 : List DocSnapshot} {c : DocSnapshot}
    (h : StrictlyDecreasing (l1 ++ c :: l2)) :
    (l1 ++ c :: l2).filter (fun d => decide (strictlyAfter c d)) = l2 := by
  obtain ⟨_, h2, h3⟩ := List.pairwise_append.mp h
  obtain ⟨h4, _⟩ := List.pairwise_cons.mp h2
  have e1 : l1.filter (fun d => decide (strictlyAfter c d)) = [] := by
    rw [List.filter_eq_nil_iff]
    intro a ha
    simpa using not_strictlyAfter_of_before (h3 a ha c (List.mem_cons_self _ _))
  have e2 : l2.filter (fun d => decide (strictlyAfter c d)) = l2 := by
    rw [List.filter_eq_self]
    intro a ha
    simpa using strictlyAfter_of_before (h4 a ha)
  rw [List.filter_append, e1, List.filter_cons, e2]
  simp [not_strictlyAfter_self c]

theorem runQuery_live {store : List DocSnapshot} (h : StrictlyDecreasing store) :
    runQuery store liveQuery = page store 0 := by
  simp [runQuery, liveQuery, page, insertionSort_of_strictlyDecreasing h]

theorem store_split {store : List DocSnapshot} {k : Nat} {c : DocSnapshot}
    (hc : (page store k).getLast? = some c) :
    store = (store.take (30 * k) ++ (page store k).dropLast) ++ c :: store.drop (30 * k + 30) := by
  have h1 : (page store k).dropLast ++ [c] = page store k :=
    List.dropLast_append_getLast? c hc
  have h2 : page store k ++ store.drop (30 * k + 30) = store.drop (30 * k) := by
    unfold page
    rw [← List.drop_drop, List.take_append_drop]
  calc store = store.take (30 * k) ++ store.drop (30 * k) := (List.take_append_drop _ _).symm
    _ = store.take (30 * k) ++ (page store k ++ store.drop (30 * k + 30)) := by rw [h2]
    _ = store.take (30 * k) ++ (((page store k).dropLast ++ [c]) ++ store.drop (30 * k + 30)) := by
        rw [h1]
    _ = _ := by simp

theorem runQuery_after_page {store : List DocSnapshot} (h : StrictlyDecreasing store)
    {k : Nat} {c : DocSnapshot} (hc : (page store k).getLast? = some c) :
    runQuery store { startAfter := some c, limit := 30 } = page store (k + 1) := by
  have hs := store_split hc
  have hf : store.filter (fun d => decide (strictlyAfter c d)) = store.drop (30 * k + 30) := by
    have h' := h
    rw [hs] at h'
    have := filter_strictlyAfter h'
    rw [← hs] at this
    exact this
  simp only [runQuery, insertionSort_of_strictlyDecreasing h, hf, page]
  rfl

theorem page_succ_eq_nil {store : List DocSnapshot} {k : Nat} (h : page store k = []) :
    page store (k + 1) = [] := by
  unfold page at *
  have hl := congrArg List.length h
  simp only [List.length_take, List.length_drop, List.length_nil] at hl
  apply List.eq_nil_of_length_eq_zero
  simp only [List.length_take, List.length_drop]
  omega

theorem page_older {store : List DocSnapshot} (h : StrictlyDecreasing store) {j k : Nat}
    (hjk : j < k) {a b : DocSnapshot} (ha : a ∈ page store j) (hb : b ∈ page store k) :
    b.data.createdAt.before a.data.createdAt := by
  have ha' : a ∈ store.take (30 * j + 30) := by
    rw [List.take_add]
    exact List.mem_append_right _ ha
  have hb' : b ∈ store.drop (30 * j + 30) := by
    have e : 30 * k = (30 * j + 30) + (30 * k - (30 * j + 30)) := by omega
    unfold page at hb
    rw [e, ← List.drop_drop] at hb
    exact List.mem_of_mem_drop (List.mem_of_mem_take hb)
  exact List.Sorted.rel_of_mem_take_of_mem_drop h ha' hb'

theorem pages_flatten (store : List DocSnapshot) (n : Nat) :
    ((List.range (n + 1)).map (page store)).flatten = store.take (30 * (n + 1)) := by
  induction n with
  | zero => simp [page, List.range_succ]
  | succ n ih =>
    rw [List.range_succ, List.map_append, List.flatten_append, ih]
    have e : 30 * (n + 1 + 1) = 30 * (n + 1) + 30 := by omega
    rw [e, List.take_add]
    simp [page]

theorem feedAfter_closed {store : List DocSnapshot} (h : StrictlyDecreasing store) (n : Nat) :
    (feedAfter store n).1.lastVisible = (page store n).getLast? ∧
    (feedAfter store n).1.isLoadingMore = false ∧
    (feedAfter store n).2 = expectedLog store n := by
  induction n with
  | zero =>
    refine ⟨?_, rfl, rfl⟩
    simp [feedAfter, render, onMessagesSnapshot, runQuery_live h]
  | succ n ih =>
    obtain ⟨ih1, ih2, ih3⟩ := ih
    have hrange : expectedLog store (n + 1) = expectedLog store n ++
        (match (page store n).getLast? with
          | some c => [(({ startAfter := some c, limit := 30 } : MessagesQuery),
              page store (n + 1))]
          | none => []) := by
      unfold expectedLog
      rw [List.range_succ, List.filterMap_append]
      cases hg : (page store n).getLast? <;> simp [hg]
    rw [hrange]
    cases hp : (page store n).getLast? with
    | none =>
      rw [hp] at ih1
      have hnil : page store (n + 1) = [] :=
        page_succ_eq_nil (List.getLast?_eq_none_iff.mp hp)
      simp [feedAfter, loadMoreMessages, loadMoreMessagesStart, ih1, render, ih2, ih3,
        fetchesOf, hnil]
    | some c =>
      rw [hp] at ih1
      have hq := runQuery_after_page h hp
      simp only [feedAfter, loadMoreMessages, loadMoreMessagesStart, ih1, render,
        storeGetDocs, hq, loadMoreMessagesResume, fetchesOf, ih3, List.filterMap_cons,
        List.filterMap_nil]
      refine ⟨?_, ?_, ?_⟩
      · cases hp1 : page store (n + 1) <;> simp
      · simp
      · simp

theorem page_length (store : List DocSnapshot) (k : Nat) :
    (page store k).length = min 30 (store.length - 30 * k) := by
  simp [page]

theorem page_eq_nil_of_le {store : List DocSnapshot} {n m : Nat} (h : page store n = [])
    (hnm : n ≤ m) : page store m = [] := by
  have hl := congrArg List.length h
  rw [page_length] at hl
  apply List.eq_nil_of_length_eq_zero
  rw [page_length]
  simp only [List.length_nil] at hl
  omega

theorem expectedLog_succ (store : List DocSnapshot) (n : Nat) :
    expectedLog store (n + 1) = expectedLog store n ++
      (match (page store n).getLast? with
        | some c => [(({ startAfter := some c, limit := 30 } : MessagesQuery),
            page store (n + 1))]
        | none => []) := by
  unfold expectedLog
  rw [List.range_succ, List.filterMap_append]
  cases hg : (page store n).getLast? <;> simp [hg]

theorem expectedLog_stable {store : List DocSnapshot} {n : Nat} (h : page store n = [])
    (m : Nat) (hnm : n ≤ m) : expectedLog store m = expectedLog store n := by
  induction m, hnm using Nat.le_induction with
  | base => rfl
  | succ m hm ih =>
    rw [expectedLog_succ, ih, page_eq_nil_of_le h hm]
    simp

theorem page_strictlyDecreasing {store : List DocSnapshot} (h : StrictlyDecreasing store)
    (k : Nat) : StrictlyDecreasing (page store k) :=
  List.Pairwise.sublist ((List.take_sublist _ _).trans (List.drop_sublist _ _)) h

/-- C3: over a collection listed newest first with strictly decreasing `createdAt`,
the first live notification delivers the 30 newest documents, and after `n` completed
`loadMoreMessages` calls the cursor is the last document of page `n` (none when that
page is empty), `isLoadingMore` is false and the fetches issued are exactly: call
`k + 1` fetches page `k + 1` from the last document of page `k`, as long as page `k`
is not empty.  Pages are consecutive chunks of at most 30 documents in descending
order, every document of a later page strictly older than every document of an earlier
one, and every fetched document strictly older than the cursor of its fetch.  Once the
cursor is null it stays null and nothing more is fetched.  With 65 documents the
batches have sizes 30, 30, 5, 0 and the cursor is null after the fourth. -/
theorem feed_pagination (store : List DocSnapshot) (h : StrictlyDecreasing store) :
    runQuery store liveQuery = store.take 30 ∧
    (∀ n, (feedAfter store n).1.lastVisible = (page store n).getLast? ∧
      (feedAfter store n).1.isLoadingMore = false ∧
      (feedAfter store n).2 = expectedLog store n) ∧
    (∀ k, (page store k).length ≤ 30 ∧ StrictlyDecreasing (page store k)) ∧
    (∀ n, ((List.range (n + 1)).map (page store)).flatten = store.take (30 * (n + 1))) ∧
    (∀ j k, j < k → ∀ a ∈ page store j, ∀ b ∈ page store k,
      b.data.createdAt.before a.data.createdAt) ∧
    (∀ n, ∀ f ∈ (feedAfter store n).2,
      f.2.length ≤ 30 ∧ StrictlyDecreasing f.2 ∧ f.1.limit = 30 ∧
      ∃ c, f.1.startAfter = some c ∧
        ∀ d ∈ f.2, d.data.createdAt.before c.data.createdAt) ∧
    (∀ n, (feedAfter store n).1.lastVisible = none → ∀ m, n ≤ m →
      (feedAfter store m).1.lastVisible = none ∧
      (feedAfter store m).2 = (feedAfter store n).2) ∧
    (store.length = 65 →
      (runQuery store liveQuery).length = 30 ∧
      (feedAfter store 3).2.map (fun f => f.2.length) = [30, 5, 0] ∧
      (feedAfter store 2).1.lastVisible ≠ none ∧
      (feedAfter store 3).1.lastVisible = none ∧
      (feedAfter store 4).2 = (feedAfter store 3).2) := by
  have hclosed := feedAfter_closed h
  have hlen : ∀ k, (page store k).length ≤ 30 := by
    intro k
    rw [page_length]
    omega
  refine ⟨?_, hclosed, ?_, pages_flatten store, ?_, ?_, ?_, ?_⟩
  · simpa [page] using runQuery_live h
  · exact fun k => ⟨hlen k, page_strictlyDecreasing h k⟩
  · exact fun j k hjk a ha b hb => page_older h hjk ha hb
  · intro n f hf
    rw [(hclosed n).2.2] at hf
    simp only [expectedLog, List.mem_filterMap, List.mem_range, Option.map_eq_some'] at hf
    obtain ⟨k, _, c, hc, rfl⟩ := hf
    refine ⟨hlen _, page_strictlyDecreasing h _, rfl, c, rfl, ?_⟩
    intro d hd
    exact page_older h (Nat.lt_succ_self k) (List.mem_of_getLast?_eq_some hc) hd
  · intro n hn m hnm
    rw [(hclosed n).1] at hn
    have hnil : page store n = [] := List.getLast?_eq_none_iff.mp hn
    rw [(hclosed m).1, (hclosed m).2.2, (hclosed n).2.2, page_eq_nil_of_le hnil hnm]
    exact ⟨rfl, expectedLog_stable hnil m hnm⟩
  · intro h65
    have l0 : (page store 0).length = 30 := by rw [page_length, h65]; rfl
    have l1 : (page store 1).length = 30 := by rw [page_length, h65]; rfl
    have l2 : (page store 2).length = 5 := by rw [page_length, h65]; rfl
    have l3 : (page store 3).length = 0 := by rw [page_length, h65]; rfl
    have n3 : page store 3 = [] := List.eq_nil_of_length_eq_zero l3
    have some_of_length : ∀ k, 0 < (page store k).length →
        ∃ c, (page store k).getLast? = some c := by
      intro k hk
      cases hg : (page store k).getLast? with
      | none =>
        rw [List.getLast?_eq_none_iff.mp hg] at hk
        simp at hk
      | some c => exact ⟨c, rfl⟩
    obtain ⟨c0, hc0⟩ := some_of_length 0 (by omega)
    obtain ⟨c1, hc1⟩ := some_of_length 1 (by omega)
    obtain ⟨c2, hc2⟩ := some_of_length 2 (by omega)
    have e3 : expectedLog store 3 =
        [(({ startAfter := some c0, limit := 30 } : MessagesQuery), page store 1),
         ({ startAfter := some c1, limit := 30 }, page store 2),
         ({ startAfter := some c2, limit := 30 }, page store 3)] := by
      simp [expectedLog, List.range_succ, hc0, hc1, hc2]
    refine ⟨?_, ?_, ?_, ?_, ?_⟩
    · rw [runQuery_live h, l0]
    · rw [(hclosed 3).2.2, e3]
      simp [l1, l2, l3]
    · rw [(hclosed 2).1, hc2]
      simp
    · rw [(hclosed 3).1, n3]
      rfl
    · rw [(hclosed 4).2.2, (hclosed 3).2.2]
      exact expectedLog_stable n3 4 (by omega)

/-- C3, witness: a collection of 65 documents. -/
theorem feed_pagination_witness :
    (sampleStore 65).length = 65 ∧
    (runQuery (sampleStore 65) liveQuery).length = 30 ∧
    (feedAfter (sampleStore 65) 3).2.map (fun f => f.2.length) = [30, 5, 0] ∧
    (feedAfter (sampleStore 65) 3).1.lastVisible = none :=
  ⟨by decide,
   ((feed_pagination (sampleStore 65) (by decide)).2.2.2.2.2.2.2
      (by decide)).1,
   ((feed_pagination (sampleStore 65) (by decide)).2.2.2.2.2.2.2
      (by decide)).2.1,
   ((feed_pagination (sampleStore 65) (by decide)).2.2.2.2.2.2.2
      (by decide)).2.2.2.1⟩

end ChatApp
